import Mathlib

/-!
Shallow embedding of `src/go/types/call.go` (typechecking of call and
selector expressions, package `types`).

External collaborators (general expression evaluation, the assignability
check, `LookupFieldOrMethod`, the conversion and builtin checkers, the
object recorder `recordObject`) are modelled as parameters/oracles; the
logic of `call`, `argument` and `selector` is translated line by line.
The compile-time constant `debug` is taken to be `false`, so the
debug-only blocks (the variadic-slice dump and the method-set
cross-check) are omitted.  Run-time panics of the source (`typ.(*Slice)`
type-assertion failure, `sig.params.vars[n-1]` out-of-range indexing,
`unreachable()`) are modelled by returning `none`.
-/

namespace GoTypes

/-- Operand modes (`operand.go`): exactly the closed variant set used by
`call.go`.  The source's `variable` mode is spelled `varMode` because
`variable` is a Lean keyword. -/
inductive Mode where
  | invalid
  | novalue
  | constant
  | varMode
  | typexpr
  | value
  deriving DecidableEq, Repr

/-- Types, as far as `call.go` inspects them: `*Tuple`, `*Signature`,
`*Slice`, `*Pointer`, `*Builtin` and named types (whose `Underlying`
matters for the signature test); everything else is `basic`.
A `sigT ps rs variadic` node is a `*Signature` with parameter types `ps`,
result types `rs` and the `isVariadic` flag. -/
inductive Ty where
  | basic : String → Ty
  | named : String → Ty → Ty
  | tuple : List Ty → Ty
  | sigT : List Ty → List Ty → Bool → Ty
  | slice : Ty → Ty
  | pointer : Ty → Ty
  | builtinT : Nat → Ty
  deriving Repr

/-- `Type.Underlying()`: unfold named types. -/
def Ty.underlying : Ty → Ty
  | .named _ u => u.underlying
  | t => t

/-- A `*Signature` viewed through its fields `params`, `results`,
`isVariadic` (parameter and result variables abstracted to their types). -/
structure Signature where
  params : List Ty
  results : List Ty
  isVariadic : Bool
  deriving Repr

/-- `x.typ.Underlying().(*Signature)` with the `ok` flag. -/
def underlyingSig (t : Ty) : Option Signature :=
  match t.underlying with
  | .sigT ps rs v => some ⟨ps, rs, v⟩
  | _ => none

/-- The working result of checking one expression (`operand`): its mode,
its type, and — meaningful only for mode `constant` — its value. -/
structure Operand where
  mode : Mode
  typ : Ty
  deriving Repr

/-- The diagnostics `call.go` can emit, one tag per `check.errorf` /
`check.invalidOp` call site. -/
inductive Err where
  | notCallable
  | spreadOnNonVariadic
  | tooFewArguments
  | tooManyArguments
  | spreadPositionMismatch
  | spreadTypeMismatch
  | argumentTypeMismatch
  | undeclaredPackageMember
  | unexportedPackageMember
  | noSuchMember
  | ambiguousSelector
  | noSuchMethod
  | notInMethodSet
  deriving DecidableEq, Repr

/-- The final assignability step of `argument` (call.go:153-155):
`if !check.assignment(x, typ) && x.mode != invalid { check.errorf(...) }`.
The assignability collaborator `check.assignment` is the oracle `assign`
(its type-narrowing side effect is not observed by `call.go`). -/
def assignStep (assign : Operand → Ty → Bool) (x : Operand) (typ : Ty) : List Err :=
  if assign x typ = false ∧ x.mode ≠ .invalid then [Err.argumentTypeMismatch] else []

/-- The body of `argument` after the parameter type `typ` for position `i`
has been resolved (call.go:138-155).  `none` models the panic of the
`typ.(*Slice).elt` type assertion. -/
def argumentBody (assign : Operand → Ty → Bool) (sig : Signature) (i : Nat)
    (x : Operand) (passSlice : Bool) (typ : Ty) : Option (List Err) :=
  if passSlice then
    -- argument is of the form x...
    if i ≠ sig.params.length - 1 then some [Err.spreadPositionMismatch]
    else
      match x.typ with
      | .slice _ => some (assignStep assign x typ)
      | _ => some [Err.spreadTypeMismatch]
  else if sig.isVariadic ∧ sig.params.length - 1 ≤ i then
    -- use the variadic parameter slice's element type
    match typ with
    | .slice elt => some (assignStep assign x elt)
    | _ => none
  else some (assignStep assign x typ)

/-- `(*checker).argument` (call.go:118-156): checks passing of argument
`x` to the `i`-th parameter of `sig`; `passSlice` means the argument is
followed by `...` in the call.  `none` models a run-time panic
(`sig.params.vars[n-1]` with no parameters, or the slice cast). -/
def argument (assign : Operand → Ty → Bool) (sig : Signature) (i : Nat)
    (x : Operand) (passSlice : Bool) : Option (List Err) :=
  -- determine parameter type
  if h : i < sig.params.length then
    argumentBody assign sig i x passSlice (sig.params.get ⟨i, h⟩)
  else if sig.isVariadic then
    match sig.params.getLast? with
    | some typ => argumentBody assign sig i x passSlice typ
    | none => none
  else some [Err.tooManyArguments]

/-- The loop of call.go:57-61: check the components of a tuple-typed
single argument, component `i` as positional argument `i`, with operand
mode `value` and the component's type; the spread flag is passed only for
the last component (`passSlice && i == n-1`, where `n` is the tuple
length). -/
def checkTupleArgs (assign : Operand → Ty → Bool) (sig : Signature)
    (passSlice : Bool) (n : Nat) : Nat → List Ty → Option (List Err)
  | _, [] => some []
  | i, t :: rest => do
      let e ← argument assign sig i ⟨.value, t⟩ (passSlice && i == n - 1)
      let es ← checkTupleArgs assign sig passSlice n (i + 1) rest
      pure (e ++ es)

/-- The loop of call.go:72-77: check each evaluated argument operand at
its position, skipping operands whose evaluation failed; the spread flag
is passed only at the last position (`passSlice && i == n-1`, `n` the
argument count). -/
def checkMultiArgs (assign : Operand → Ty → Bool) (sig : Signature)
    (passSlice : Bool) (n : Nat) : Nat → List Operand → Option (List Err)
  | _, [] => some []
  | i, x :: rest =>
      if x.mode = .invalid then checkMultiArgs assign sig passSlice n (i + 1) rest
      else do
        let e ← argument assign sig i x (passSlice && i == n - 1)
        let es ← checkMultiArgs assign sig passSlice n (i + 1) rest
        pure (e ++ es)

/-- Argument evaluation of the function/method-call branch
(call.go:47-78), returning the count `n` of positional arguments
considered together with the diagnostics of the per-position checks.
The argument expressions are represented by their evaluated operands
(`check.expr` is the evaluation oracle that produced them). -/
def evalArgs (assign : Operand → Ty → Bool) (sig : Signature)
    (passSlice : Bool) (args : List Operand) : Option (Nat × List Err) :=
  match args with
  | [arg] =>
      -- single argument but possibly a multi-valued function call
      if arg.mode = .invalid then
        -- avoid additional argument length errors below
        some (sig.params.length, [])
      else
        match arg.typ with
        | .tuple comps =>
            -- argument is multi-valued function call
            (checkTupleArgs assign sig passSlice comps.length 0 comps).map
              fun es => (comps.length, es)
        | _ =>
            -- single value
            (argument assign sig 0 arg passSlice).map fun es => (1, es)
  | _ =>
      -- zero or multiple arguments
      (checkMultiArgs assign sig passSlice args.length 0 args).map
        fun es => (args.length, es)

/-- The result operand of a function/method call (call.go:91-101): zero
results give mode `novalue` (the source leaves `x.typ` stale there; no
consumer reads it, we normalize it to an empty tuple), one result gives
mode `value` with that result's type (tuple unpacked), several results
give mode `value` with the results tuple. -/
def callResultOperand (sig : Signature) : Operand :=
  match sig.results with
  | [] => ⟨.novalue, .tuple []⟩
  | [r] => ⟨.value, r⟩
  | rs => ⟨.value, .tuple rs⟩

/-- Outcome of `(*checker).call`.  The conversion and builtin checkers
are external collaborators, so those branches record only the delegation;
`completed` is the function/method-call branch with its result operand
and emitted diagnostics; `invalidCallee` is call.go:16-26 (arguments are
still independently evaluated there, for their own diagnostics only);
`notCallable` is call.go:111-113. -/
inductive CallResult where
  | invalidCallee
  | conversionDelegated (t : Ty)
  | builtinDelegated (id : Nat)
  | completed (x : Operand) (errs : List Err)
  | notCallable
  deriving Repr

/-- `(*checker).call` (call.go:14-114).  `fx` is the operand produced by
`check.exprOrType` on the callee, `args` the operands produced by
`check.expr` on the argument expressions, `hasEllipsis` whether the call
has a trailing `...`.  Diagnostics are listed in emission order: the
spread-legality error, then the per-argument errors, then the arity
error. -/
def call (assign : Operand → Ty → Bool) (fx : Operand) (args : List Operand)
    (hasEllipsis : Bool) : Option CallResult :=
  if fx.mode = .invalid then some .invalidCallee
  else if fx.mode = .typexpr then some (.conversionDelegated fx.typ)
  else
    match underlyingSig fx.typ with
    | some sig =>
        -- function/method call
        let spreadErrs : List Err :=
          if hasEllipsis && !sig.isVariadic then [Err.spreadOnNonVariadic] else []
        let passSlice := hasEllipsis && sig.isVariadic
        match evalArgs assign sig passSlice args with
        | none => none
        | some (n, argErrs) =>
            -- check argument count: a variadic function accepts an
            -- "empty" last argument, count one extra
            let n := if sig.isVariadic then n + 1 else n
            let arityErrs : List Err :=
              if n < sig.params.length then [Err.tooFewArguments] else []
            some (.completed (callResultOperand sig) (spreadErrs ++ argErrs ++ arityErrs))
    | none =>
        match fx.typ with
        | .builtinT id => some (.builtinDelegated id)
        | _ => some .notCallable

/-- Named objects as `call.go` consumes them: constants, type names,
variables and functions (the object kinds a package scope or
`LookupFieldOrMethod` can produce here).  A `funcObj ptrRecv ftyp`
carries whether its receiver is pointer-typed (`ptrRecv m` in the
source) and its function type `ftyp` (the object's `typ` field, a
`*Signature`). -/
inductive Object where
  | constObj (typ : Ty) (val : Nat)
  | typeNameObj (typ : Ty)
  | varObj (typ : Ty)
  | funcObj (ptrRecv : Bool) (ftyp : Ty)
  deriving Repr

/-- `ast.IsExported(name)`: the first character is upper case (ASCII
approximation of `unicode.IsUpper` on the first rune). -/
def isExported (name : String) : Bool :=
  name.front.isUpper

/-- Result of `LookupFieldOrMethod(x.typ, check.pkg, sel)` as `call.go`
discriminates it: `found obj index indirect`, or `obj == nil` with
`index != nil` (ambiguous), or both `nil` (no field or method). -/
inductive LookupRes where
  | found (obj : Object) (index : List Nat) (indirect : Bool)
  | ambiguous
  | missing
  deriving Repr

/-- A package's scope (`pkg.scope.Lookup`): the member table of an
imported package, which may also contain unexported objects carried over
from a gc-imported interface. -/
def PkgScope := String → Option Object

/-- The operand at the `Error` label (call.go:317-319): the source sets
only `x.mode = invalid` and leaves `x.typ` stale; no consumer reads the
stale type, we normalize it to an empty tuple. -/
def errOperand : Operand := ⟨.invalid, .tuple []⟩

/-- `(*checker).selector` (call.go:158-320).

`pkgBinding` models call.go:171-172: it is `some scope` exactly when the
base expression is a bare identifier that `check.topScope.LookupParent`
resolves to a `*Package`, and `scope` is that package's member table.
`x` is the operand produced by `check.exprOrType` on the base expression
(only consulted on the ordinary path, as in the source), `lfm` the
`LookupFieldOrMethod` collaborator, `sel` the selected name.  The
`recordObject` calls are writes to an external sink and are not modelled.
`none` models the `unreachable()` panics and the `m.typ.(*Signature)`
cast failure; the debug-only method-set cross-check is compiled out
(`debug = false`). -/
def selector (pkgBinding : Option PkgScope) (x : Operand)
    (lfm : Ty → String → LookupRes) (sel : String) :
    Option (Operand × List Err) :=
  match pkgBinding with
  | some scope =>
      -- the identifier refers to a package: qualified identifier
      match scope sel with
      | none => some (errOperand, [Err.undeclaredPackageMember])
      | some exp =>
          if isExported sel = false then
            -- gcimported package scopes contain non-exported objects -
            -- do not accept them
            some (errOperand, [Err.unexportedPackageMember])
          else
            match exp with
            | .constObj t _v => some (⟨.constant, t⟩, [])
            | .typeNameObj t => some (⟨.typexpr, t⟩, [])
            | .varObj t => some (⟨.varMode, t⟩, [])
            | .funcObj _ ft => some (⟨.value, ft⟩, [])
  | none =>
      if x.mode = .invalid then some (errOperand, [])
      else
        match lfm x.typ sel with
        | .missing => some (errOperand, [Err.noSuchMember])
        | .ambiguous => some (errOperand, [Err.ambiguousSelector])
        | .found obj _index indirect =>
            if x.mode = .typexpr then
              -- method expression
              match obj with
              | .funcObj pr ft =>
                  -- verify that m is in the method set of x.typ
                  if indirect = false ∧ pr = true then
                    some (errOperand, [Err.notInMethodSet])
                  else
                    -- the receiver type becomes the type of the first
                    -- function argument of the method expression's type
                    match ft with
                    | .sigT ps rs v => some (⟨.value, .sigT (x.typ :: ps) rs v⟩, [])
                    | _ => none
              | _ => some (errOperand, [Err.noSuchMethod])
            else
              -- regular selector
              match obj with
              | .varObj t => some (⟨.varMode, t⟩, [])
              | .funcObj pr ft =>
                  -- verify that obj is in the method set of x.typ
                  -- (or of &(x.typ) if x is addressable)
                  if indirect = false ∧ x.mode ≠ .varMode ∧ pr = true then
                    some (errOperand, [Err.notInMethodSet])
                  else some (⟨.value, ft⟩, [])
              | _ => none

/-- The count `n` of positional arguments considered by call.go:47-78,
read off the same case analysis as `evalArgs`: a single invalid argument
counts as the full parameter count (call.go:68), a single tuple-typed
argument as the tuple's length (call.go:56), any other argument list as
its length. -/
def consideredCount (sig : Signature) (args : List Operand) : Nat :=
  match args with
  | [arg] =>
      if arg.mode = .invalid then sig.params.length
      else
        match arg.typ with
        | .tuple comps => comps.length
        | _ => 1
  | _ => args.length

/-! Concrete fixtures used by witness and counterexample theorems. -/

/-- An assignability oracle that accepts everything. -/
def alwaysAssign : Operand → Ty → Bool := fun _ _ => true

/-- A pointer-receiver method `M` of signature `func(int) bool`. -/
def ptrM : Object := .funcObj true (.sigT [.basic "int"] [.basic "bool"] false)

/-- A lookup collaborator that finds `ptrM` directly (empty embedding
path), with the given indirection flag. -/
def lfmPtrM (ind : Bool) : Ty → String → LookupRes := fun _ _ => .found ptrM [] ind

/-- A package member table holding one unexported member `unexp`. -/
def pkgScopeFix : PkgScope := fun s =>
  if s = "unexp" then some (.varObj (.basic "int")) else none

/-- The variadic signature `func(int, ...string)`. -/
def sigVarFix : Signature := ⟨[.basic "int", .slice (.basic "string")], [], true⟩

/-- The signature `func(int, string) bool`. -/
def sigTwoFix : Signature := ⟨[.basic "int", .basic "string"], [.basic "bool"], false⟩

/-- A callee operand whose type is `sigTwoFix`. -/
def fxTwoFix : Operand := ⟨.value, .sigT [.basic "int", .basic "string"] [.basic "bool"] false⟩

/-! General lemmas about the embedded checker. -/

/-- The assignability step emits at most an `ArgumentTypeMismatch`. -/
theorem assignStep_sub (assign : Operand → Ty → Bool) (x : Operand) (t : Ty) :
    assignStep assign x t = [] ∨ assignStep assign x t = [Err.argumentTypeMismatch] := by
  unfold assignStep; split <;> simp

/-- Every diagnostic list `argumentBody` can produce. -/
theorem argumentBody_cases (assign : Operand → Ty → Bool) (sig : Signature)
    (i : Nat) (x : Operand) (ps : Bool) (t : Ty) (es : List Err)
    (h : argumentBody assign sig i x ps t = some es) :
    es = [] ∨ es = [Err.argumentTypeMismatch] ∨ es = [Err.spreadPositionMismatch] ∨
      es = [Err.spreadTypeMismatch] := by
  unfold argumentBody at h
  split at h
  · split at h
    · exact Or.inr (Or.inr (Or.inl (Option.some.inj h).symm))
    · split at h
      · rcases assignStep_sub assign x t with hs | hs <;> rw [hs] at h
        · exact Or.inl (Option.some.inj h).symm
        · exact Or.inr (Or.inl (Option.some.inj h).symm)
      · exact Or.inr (Or.inr (Or.inr (Option.some.inj h).symm))
  · split at h
    · split at h
      · rcases assignStep_sub assign x _ with hs | hs <;> rw [hs] at h
        · exact Or.inl (Option.some.inj h).symm
        · exact Or.inr (Or.inl (Option.some.inj h).symm)
      · simp at h
    · rcases assignStep_sub assign x t with hs | hs <;> rw [hs] at h
      · exact Or.inl (Option.some.inj h).symm
      · exact Or.inr (Or.inl (Option.some.inj h).symm)

/-- Every diagnostic list `argument` can produce. -/
theorem argument_cases (assign : Operand → Ty → Bool) (sig : Signature)
    (i : Nat) (x : Operand) (ps : Bool) (es : List Err)
    (h : argument assign sig i x ps = some es) :
    es = [] ∨ es = [Err.argumentTypeMismatch] ∨ es = [Err.spreadPositionMismatch] ∨
      es = [Err.spreadTypeMismatch] ∨ es = [Err.tooManyArguments] := by
  unfold argument at h
  split at h
  · exact (argumentBody_cases _ _ _ _ _ _ _ h).imp id (Or.imp id (Or.imp id Or.inl))
  · split at h
    · split at h
      · exact (argumentBody_cases _ _ _ _ _ _ _ h).imp id (Or.imp id (Or.imp id Or.inl))
      · simp at h
    · exact Or.inr (Or.inr (Or.inr (Or.inr (Option.some.inj h).symm)))

/-- The Argument Matcher never reports `TooFewArguments`. -/
theorem argument_no_tooFew (assign : Operand → Ty → Bool) (sig : Signature)
    (i : Nat) (x : Operand) (ps : Bool) (es : List Err)
    (h : argument assign sig i x ps = some es) : Err.tooFewArguments ∉ es := by
  rcases argument_cases assign sig i x ps es h with h1 | h1 | h1 | h1 | h1 <;>
    subst h1 <;> decide

/-- The tuple-component loop never reports `TooFewArguments`. -/
theorem checkTupleArgs_no_tooFew (assign : Operand → Ty → Bool) (sig : Signature)
    (ps : Bool) (n : Nat) : ∀ (i : Nat) (comps : List Ty) (es : List Err),
    checkTupleArgs assign sig ps n i comps = some es → Err.tooFewArguments ∉ es := by
  intro i comps
  induction comps generalizing i with
  | nil =>
      intro es h
      simp [checkTupleArgs] at h
      exact h ▸ (by decide : Err.tooFewArguments ∉ ([] : List Err))
  | cons t rest ih =>
      intro es h
      simp only [checkTupleArgs, Option.bind_eq_bind, Option.bind_eq_some] at h
      obtain ⟨e, he, es', hes', heq⟩ := h
      have hgoal : Err.tooFewArguments ∉ e ++ es' := by
        simp only [List.mem_append]
        push_neg
        exact ⟨argument_no_tooFew _ _ _ _ _ _ he, ih _ _ hes'⟩
      exact (Option.some.inj heq) ▸ hgoal

/-- The multi-argument loop never reports `TooFewArguments`. -/
theorem checkMultiArgs_no_tooFew (assign : Operand → Ty → Bool) (sig : Signature)
    (ps : Bool) (n : Nat) : ∀ (i : Nat) (xs : List Operand) (es : List Err),
    checkMultiArgs assign sig ps n i xs = some es → Err.tooFewArguments ∉ es := by
  intro i xs
  induction xs generalizing i with
  | nil =>
      intro es h
      simp [checkMultiArgs] at h
      exact h ▸ (by decide : Err.tooFewArguments ∉ ([] : List Err))
  | cons x rest ih =>
      intro es h
      simp only [checkMultiArgs] at h
      split at h
      · exact ih _ _ h
      · simp only [Option.bind_eq_bind, Option.bind_eq_some] at h
        obtain ⟨e, he, es', hes', heq⟩ := h
        have hgoal : Err.tooFewArguments ∉ e ++ es' := by
          simp only [List.mem_append]
          push_neg
          exact ⟨argument_no_tooFew _ _ _ _ _ _ he, ih _ _ hes'⟩
        exact (Option.some.inj heq) ▸ hgoal

/-- Argument evaluation never reports `TooFewArguments`: that diagnostic
comes only from the arity check. -/
theorem evalArgs_no_tooFew (assign : Operand → Ty → Bool) (sig : Signature)
    (ps : Bool) (args : List Operand) (n : Nat) (es : List Err)
    (h : evalArgs assign sig ps args = some (n, es)) : Err.tooFewArguments ∉ es := by
  rcases args with _ | ⟨a, _ | ⟨b, rest⟩⟩
  · simp only [evalArgs, Option.map_eq_some'] at h
    obtain ⟨es0, hes0, heq⟩ := h
    obtain ⟨-, rfl⟩ := Prod.mk.injEq .. ▸ heq
    exact checkMultiArgs_no_tooFew assign sig ps _ _ _ _ hes0
  · by_cases ha : a.mode = .invalid
    · simp only [evalArgs, if_pos ha, Option.some.injEq, Prod.mk.injEq] at h
      obtain ⟨-, rfl⟩ := h
      decide
    · cases hty : a.typ <;>
        simp only [evalArgs, if_neg ha, hty, Option.map_eq_some'] at h <;>
        obtain ⟨es0, hes0, heq⟩ := h <;>
        obtain ⟨-, rfl⟩ := Prod.mk.injEq .. ▸ heq <;>
        first
          | exact checkTupleArgs_no_tooFew assign sig ps _ _ _ _ hes0
          | exact argument_no_tooFew assign sig 0 a ps _ hes0
  · simp only [evalArgs, Option.map_eq_some'] at h
    obtain ⟨es0, hes0, heq⟩ := h
    obtain ⟨-, rfl⟩ := Prod.mk.injEq .. ▸ heq
    exact checkMultiArgs_no_tooFew assign sig ps _ _ _ _ hes0

/-- Argument evaluation returns exactly `consideredCount` as its argument
count. -/
theorem evalArgs_count (assign : Operand → Ty → Bool) (sig : Signature)
    (ps : Bool) (args : List Operand) (n : Nat) (es : List Err)
    (h : evalArgs assign sig ps args = some (n, es)) : n = consideredCount sig args := by
  rcases args with _ | ⟨a, _ | ⟨b, rest⟩⟩
  · simp only [evalArgs, Option.map_eq_some'] at h
    obtain ⟨es0, hes0, heq⟩ := h
    obtain ⟨rfl, -⟩ := Prod.mk.injEq .. ▸ heq
    simp [consideredCount]
  · by_cases ha : a.mode = .invalid
    · simp only [evalArgs, if_pos ha, Option.some.injEq, Prod.mk.injEq] at h
      obtain ⟨rfl, -⟩ := h
      simp [consideredCount, ha]
    · cases hty : a.typ
      all_goals
        simp only [evalArgs, if_neg ha, hty, Option.map_eq_some'] at h
        obtain ⟨es0, hes0, heq⟩ := h
        obtain ⟨rfl, -⟩ := Prod.mk.injEq .. ▸ heq
        simp [consideredCount, ha, hty]
  · simp only [evalArgs, Option.map_eq_some'] at h
    obtain ⟨es0, hes0, heq⟩ := h
    obtain ⟨rfl, -⟩ := Prod.mk.injEq .. ▸ heq
    simp [consideredCount]

/-- On argument lists that are not a single expression, argument
evaluation is the multi-argument loop. -/
theorem evalArgs_multi (assign : Operand → Ty → Bool) (sig : Signature)
    (ps : Bool) (args : List Operand) (h : args.length ≠ 1) :
    evalArgs assign sig ps args =
      (checkMultiArgs assign sig ps args.length 0 args).map
        fun es => (args.length, es) := by
  rcases args with _ | ⟨a, _ | ⟨b, l⟩⟩
  · rfl
  · simp at h
  · rfl

/-- The multi-argument loop on value operands built from a type list
agrees with the tuple-component loop on that list. -/
theorem checkMultiArgs_map_value (assign : Operand → Ty → Bool) (sig : Signature)
    (ps : Bool) (n : Nat) : ∀ (i : Nat) (comps : List Ty),
    checkMultiArgs assign sig ps n i (comps.map fun t => (⟨.value, t⟩ : Operand)) =
      checkTupleArgs assign sig ps n i comps := by
  intro i comps
  induction comps generalizing i with
  | nil => simp [checkMultiArgs, checkTupleArgs]
  | cons t rest ih =>
      simp only [List.map_cons, checkMultiArgs, checkTupleArgs]
      rw [if_neg (by simp)]
      rw [ih]

/-- Argument evaluation of a single tuple-typed argument agrees with
argument evaluation of its components as separate value operands
(provided no component is itself a tuple, which Go's type system
guarantees: tuple types never nest). -/
theorem evalArgs_tuple (assign : Operand → Ty → Bool) (sig : Signature)
    (ps : Bool) (arg : Operand) (comps : List Ty)
    (ha : arg.mode ≠ .invalid) (htup : arg.typ = .tuple comps)
    (hnt : ∀ t ∈ comps, ∀ ts, t ≠ .tuple ts) :
    evalArgs assign sig ps [arg] =
      evalArgs assign sig ps (comps.map fun t => (⟨.value, t⟩ : Operand)) := by
  rcases comps with _ | ⟨t, _ | ⟨t2, rest⟩⟩
  · simp [evalArgs, if_neg ha, htup, checkTupleArgs, checkMultiArgs]
  · have hnt1 := hnt t (by simp)
    rcases hA : argument assign sig 0 ⟨.value, t⟩ ps with _ | e <;>
      cases t <;>
      first
        | exact absurd rfl (hnt1 _)
        | simp [evalArgs, if_neg ha, htup, checkTupleArgs, hA]
  · rw [evalArgs_multi assign sig ps
      (List.map (fun t => (⟨.value, t⟩ : Operand)) (t :: t2 :: rest)) (by simp)]
    rw [checkMultiArgs_map_value, List.length_map]
    simp [evalArgs, if_neg ha, htup]

/-! Claim theorems. -/

/-- Claim C1 (amended): for a method-expression selector (base mode
`typexpr`) whose resolved member is a method with a pointer-typed
receiver, the resolver reports `NotInMethodSet` exactly when reaching the
member required NO implicit pointer indirection along the lookup path
(call.go:240: `if !indirect && ptrRecv(m)`); when the path did include an
indirection, the method expression is formed successfully, with the
receiver type prepended to the method's parameters. -/
theorem selector_methodExpr_ptrRecv (x : Operand) (lfm : Ty → String → LookupRes)
    (sel : String) (ft : Ty) (idx : List Nat) (ind : Bool)
    (ht : x.mode = .typexpr)
    (hl : lfm x.typ sel = .found (.funcObj true ft) idx ind) :
    (ind = false → selector none x lfm sel = some (errOperand, [Err.notInMethodSet])) ∧
    (∀ ps rs v, ind = true → ft = .sigT ps rs v →
       selector none x lfm sel = some (⟨.value, .sigT (x.typ :: ps) rs v⟩, [])) := by
  have hm : x.mode ≠ .invalid := by rw [ht]; simp
  constructor
  · intro hi; simp [selector, if_neg hm, hl, ht, hi]
  · intro ps rs v hi hft; simp [selector, if_neg hm, hl, ht, hi, hft]

/-- Counterexample to claim C1 as stated: the claim predicts that a
method expression over a pointer-receiver method fails with
`NotInMethodSet` exactly when an indirection was required, and succeeds
otherwise.  Here the lookup reports no indirection (`indirect = false`)
for the pointer-receiver method `ptrM`, so the claim predicts success,
but the code (call.go:240-243) reports `NotInMethodSet`. -/
theorem selector_methodExpr_claim_cex :
    lfmPtrM false (Ty.basic "T") "M" =
        .found (.funcObj true (.sigT [.basic "int"] [.basic "bool"] false)) [] false ∧
    selector none ⟨.typexpr, .basic "T"⟩ (lfmPtrM false) "M" =
      some (errOperand, [Err.notInMethodSet]) :=
  ⟨rfl, rfl⟩

/-- Witness for claim C1's amended theorem: with an indirection on the
lookup path the method expression is formed. -/
theorem selector_methodExpr_ptrRecv_wit :
    selector none ⟨.typexpr, .basic "T"⟩ (lfmPtrM true) "M" =
      some (⟨.value, .sigT [.basic "T", .basic "int"] [.basic "bool"] false⟩, []) :=
  (selector_methodExpr_ptrRecv ⟨.typexpr, .basic "T"⟩ (lfmPtrM true) "M"
      (.sigT [.basic "int"] [.basic "bool"] false) [] true rfl rfl).2
    [.basic "int"] [.basic "bool"] false rfl rfl

/-- Claim C2: for a package-qualified selector, a member missing from the
package's member table yields `UndeclaredPackageMember`; a member present
in the table but unexported yields `UnexportedPackageMember` (even though
gc-imported tables do carry unexported objects); both produce an invalid
operand and the resolver returns normally (non-fatal). -/
theorem selector_pkg_member (scope : PkgScope) (x : Operand)
    (lfm : Ty → String → LookupRes) (sel : String) :
    (scope sel = none →
      selector (some scope) x lfm sel = some (errOperand, [Err.undeclaredPackageMember])) ∧
    (∀ obj, scope sel = some obj → isExported sel = false →
      selector (some scope) x lfm sel = some (errOperand, [Err.unexportedPackageMember])) := by
  constructor
  · intro h; simp [selector, h]
  · intro obj h hexp; simp [selector, h, hexp]

/-- Witness for claim C2: the member `unexp` exists in the table but is
unexported; the member `Gone` does not exist. -/
theorem selector_pkg_member_wit :
    selector (some pkgScopeFix) errOperand (lfmPtrM false) "unexp" =
        some (errOperand, [Err.unexportedPackageMember]) ∧
    selector (some pkgScopeFix) errOperand (lfmPtrM false) "Gone" =
        some (errOperand, [Err.undeclaredPackageMember]) :=
  ⟨(selector_pkg_member pkgScopeFix errOperand (lfmPtrM false) "unexp").2
      (.varObj (.basic "int")) rfl rfl,
   (selector_pkg_member pkgScopeFix errOperand (lfmPtrM false) "Gone").1 rfl⟩

/-- Claim C4: for an ordinary (non-type) selector resolving to a method
with a pointer-typed receiver (call.go:274): if the lookup path included
no indirection and the base operand is not an addressable variable, the
resolver reports `NotInMethodSet` with an invalid operand; if the base is
a variable or the path included an indirection, the selection succeeds
with mode `value` and the method's function type. -/
theorem selector_ordinary_ptrRecv (x : Operand) (lfm : Ty → String → LookupRes)
    (sel : String) (ft : Ty) (idx : List Nat) (ind : Bool)
    (hm : x.mode ≠ .invalid) (ht : x.mode ≠ .typexpr)
    (hl : lfm x.typ sel = .found (.funcObj true ft) idx ind) :
    (ind = false → x.mode ≠ .varMode →
       selector none x lfm sel = some (errOperand, [Err.notInMethodSet])) ∧
    (ind = true ∨ x.mode = .varMode →
       selector none x lfm sel = some (⟨.value, ft⟩, [])) := by
  constructor
  · intro hi hv; simp [selector, if_neg hm, hl, if_neg ht, hi, hv]
  · rintro (hi | hv)
    · simp [selector, if_neg hm, hl, if_neg ht, hi]
    · simp [selector, if_neg hm, hl, if_neg ht, hv]

/-- Witness for claim C4: a value-mode base fails, a variable-mode base
succeeds, for the same direct (non-indirected) pointer-receiver method. -/
theorem selector_ordinary_ptrRecv_wit :
    selector none ⟨.value, .basic "T"⟩ (lfmPtrM false) "M" =
        some (errOperand, [Err.notInMethodSet]) ∧
    selector none ⟨.varMode, .basic "T"⟩ (lfmPtrM false) "M" =
        some (⟨.value, .sigT [.basic "int"] [.basic "bool"] false⟩, []) :=
  ⟨(selector_ordinary_ptrRecv ⟨.value, .basic "T"⟩ (lfmPtrM false) "M"
      (.sigT [.basic "int"] [.basic "bool"] false) [] false
      (by simp) (by simp) rfl).1 rfl (by simp),
   (selector_ordinary_ptrRecv ⟨.varMode, .basic "T"⟩ (lfmPtrM false) "M"
      (.sigT [.basic "int"] [.basic "bool"] false) [] false
      (by simp) (by simp) rfl).2 (Or.inr rfl)⟩

/-- Claim C10: an ordinary selector resolving to a field (`*Var`) yields
mode `variable` with the field's type, whatever the base operand's mode
is (call.go:262-264 sets `x.mode = variable` unconditionally) — in
particular also through a non-addressable value-mode base. -/
theorem selector_field_variable (x : Operand) (lfm : Ty → String → LookupRes)
    (sel : String) (t : Ty) (idx : List Nat) (ind : Bool)
    (hm : x.mode ≠ .invalid) (ht : x.mode ≠ .typexpr)
    (hl : lfm x.typ sel = .found (.varObj t) idx ind) :
    selector none x lfm sel = some (⟨.varMode, t⟩, []) := by
  simp [selector, if_neg hm, hl, if_neg ht]

/-- Witness for claim C10: a field selected through a value-mode
(non-addressable) base still comes out in variable mode. -/
theorem selector_field_variable_wit :
    selector none ⟨.value, .basic "S"⟩
        (fun _ _ => .found (.varObj (.basic "int")) [0] false) "F" =
      some (⟨.varMode, .basic "int"⟩, []) :=
  selector_field_variable ⟨.value, .basic "S"⟩
    (fun _ _ => .found (.varObj (.basic "int")) [0] false)
    "F" (.basic "int") [0] false (by simp) (by simp) rfl

/-- Claim C3: a call whose single argument evaluates to a `Tuple` type
(a multi-result call) is checked exactly as if the tuple components were
separate positional value arguments, in order — same per-position checks,
same spread handling on the last component, same argument count for the
arity check, same result operand (call.go:54-61).  In particular the
tuple is never matched as one value against parameter 0.  The hypothesis
that no component is itself a tuple reflects Go's type system, where
tuple types never nest. -/
theorem call_tuple_expansion (assign : Operand → Ty → Bool) (fx arg : Operand)
    (ell : Bool) (comps : List Ty) (sig : Signature)
    (hm : fx.mode ≠ .invalid) (ht : fx.mode ≠ .typexpr)
    (hs : underlyingSig fx.typ = some sig)
    (ha : arg.mode ≠ .invalid) (htup : arg.typ = .tuple comps)
    (hnt : ∀ t ∈ comps, ∀ ts, t ≠ .tuple ts) :
    call assign fx [arg] ell =
      call assign fx (comps.map fun t => (⟨.value, t⟩ : Operand)) ell := by
  simp only [call, if_neg hm, if_neg ht, hs]
  rw [evalArgs_tuple assign sig (ell && sig.isVariadic) arg comps ha htup hnt]

/-- Witness for claim C3: `f(g())` with `g` returning `(int, string)`
checked like `f(int-value, string-value)`. -/
theorem call_tuple_expansion_wit :
    call alwaysAssign fxTwoFix [⟨.value, .tuple [.basic "int", .basic "string"]⟩] false =
      call alwaysAssign fxTwoFix
        ([.basic "int", .basic "string"].map fun t => (⟨.value, t⟩ : Operand)) false :=
  call_tuple_expansion alwaysAssign fxTwoFix
    ⟨.value, .tuple [.basic "int", .basic "string"]⟩ false
    [.basic "int", .basic "string"] sigTwoFix (by decide) (by decide) rfl (by decide) rfl
    (by
      intro t ht ts
      rcases List.mem_cons.mp ht with rfl | ht2
      · simp
      · rcases List.mem_cons.mp ht2 with rfl | h3
        · simp
        · cases h3)

/-- Claim C5: when the single argument of a call fails to evaluate
(mode `invalid`), no per-position argument checks run and the effective
argument count is set to the parameter count (call.go:67-69), so the only
possible diagnostic of the call is the spread-legality error — in
particular no `TooFewArguments` is emitted — and the call still produces
its normal result operand. -/
theorem call_single_invalid (assign : Operand → Ty → Bool) (fx arg : Operand)
    (ell : Bool) (sig : Signature)
    (hm : fx.mode ≠ .invalid) (ht : fx.mode ≠ .typexpr)
    (hs : underlyingSig fx.typ = some sig)
    (ha : arg.mode = .invalid) :
    call assign fx [arg] ell =
      some (.completed (callResultOperand sig)
        (if ell && !sig.isVariadic then [Err.spreadOnNonVariadic] else [])) := by
  have h1 : ¬ ((if sig.isVariadic then sig.params.length + 1 else sig.params.length) <
      sig.params.length) := by split <;> omega
  simp only [call, if_neg hm, if_neg ht, hs, evalArgs, if_pos ha]
  simp [h1]

/-- Witness for claim C5: a two-parameter callee with one invalid
argument produces its result operand with no diagnostics at all. -/
theorem call_single_invalid_wit :
    call alwaysAssign fxTwoFix [⟨.invalid, .basic "int"⟩] false =
      some (.completed ⟨.value, .basic "bool"⟩ []) := by
  have h := call_single_invalid alwaysAssign fxTwoFix ⟨.invalid, .basic "int"⟩ false
    sigTwoFix (by decide) (by decide) rfl rfl
  simpa [callResultOperand, sigTwoFix] using h

/-- Claim C6: the arity check of a function/method call reports
`TooFewArguments` exactly when the number of positional arguments
considered, incremented by one for a variadic signature, is less than the
parameter count (call.go:80-89); it is non-fatal — the call still
produces its normal result operand — and it never reports excess
arguments (`evalArgs_no_tooFew` shows the considered-argument checks are
the only other error source in `errs`, and they never produce
`TooFewArguments`; excess arguments are reported inside the Argument
Matcher instead). -/
theorem call_tooFew (assign : Operand → Ty → Bool) (fx : Operand)
    (args : List Operand) (ell : Bool) (sig : Signature)
    (hm : fx.mode ≠ .invalid) (ht : fx.mode ≠ .typexpr)
    (hs : underlyingSig fx.typ = some sig) :
    ∀ (x : Operand) (errs : List Err),
      call assign fx args ell = some (.completed x errs) →
      ((Err.tooFewArguments ∈ errs ↔
          consideredCount sig args + (if sig.isVariadic then 1 else 0) <
            sig.params.length) ∧
        x = callResultOperand sig) := by
  intro x errs h
  simp only [call, if_neg hm, if_neg ht, hs] at h
  rcases he : evalArgs assign sig (ell && sig.isVariadic) args with _ | ⟨n, aerrs⟩ <;>
    rw [he] at h
  · simp at h
  · simp only [Option.some.injEq, CallResult.completed.injEq] at h
    obtain ⟨hx, herrs⟩ := h
    refine ⟨?_, hx.symm⟩
    rw [← herrs]
    have h1 := evalArgs_no_tooFew assign sig (ell && sig.isVariadic) args n aerrs he
    have h2 := evalArgs_count assign sig (ell && sig.isVariadic) args n aerrs he
    subst h2
    have hsp : Err.tooFewArguments ∉
        (if ell && !sig.isVariadic then [Err.spreadOnNonVariadic] else ([] : List Err)) := by
      split <;> decide
    have har : ∀ m : Nat,
        (Err.tooFewArguments ∈
          (if m < sig.params.length then [Err.tooFewArguments] else ([] : List Err))) ↔
          m < sig.params.length := by
      intro m; split <;> simp [*]
    rcases hv : sig.isVariadic <;> simp [List.mem_append, hsp, h1, hv, har]

/-- Witness for claim C6: one argument against the two-parameter
signature `sigTwoFix` reports `TooFewArguments` while the result operand
is still computed. -/
theorem call_tooFew_wit :
    (Err.tooFewArguments ∈ ([Err.tooFewArguments] : List Err) ↔
        consideredCount sigTwoFix [⟨.value, .basic "int"⟩] +
          (if sigTwoFix.isVariadic then 1 else 0) < sigTwoFix.params.length) ∧
      (⟨.value, .basic "bool"⟩ : Operand) = callResultOperand sigTwoFix :=
  call_tooFew alwaysAssign fxTwoFix [⟨.value, .basic "int"⟩] false sigTwoFix
    (by decide) (by decide) rfl ⟨.value, .basic "bool"⟩ [Err.tooFewArguments] rfl

/-- Claim C7, the Argument Matcher (call.go:118-156): a position at or
after the fixed count of a non-variadic signature reports
`TooManyArguments` and aborts; a non-spread argument at or after the
variadic slot is checked (by the assignability step, which reports
`ArgumentTypeMismatch` on failure) against the element type of the
variadic parameter's slice type; a spread-tail argument must sit at the
last parameter slot (else position mismatch) and be slice-typed (else
type mismatch), and is then checked against the declared slice type
itself — no per-element conversion. -/
theorem argument_matcher (assign : Operand → Ty → Bool) (sig : Signature)
    (i : Nat) (x : Operand) :
    (sig.isVariadic = false → sig.params.length ≤ i → ∀ ps : Bool,
       argument assign sig i x ps = some [Err.tooManyArguments]) ∧
    (∀ elt, sig.isVariadic = true → sig.params.length - 1 ≤ i →
       sig.params.getLast? = some (.slice elt) →
       argument assign sig i x false = some (assignStep assign x elt)) ∧
    (∀ elt, sig.isVariadic = true → sig.params.getLast? = some (.slice elt) →
       ((i ≠ sig.params.length - 1 →
           argument assign sig i x true = some [Err.spreadPositionMismatch]) ∧
        (i = sig.params.length - 1 → (∀ e, x.typ ≠ .slice e) →
           argument assign sig i x true = some [Err.spreadTypeMismatch]) ∧
        (∀ e, i = sig.params.length - 1 → x.typ = .slice e →
           argument assign sig i x true =
             some (assignStep assign x (.slice elt))))) := by
  refine ⟨?_, ?_, ?_⟩
  · intro hv hle ps
    have hin : ¬ i < sig.params.length := by omega
    simp [argument, dif_neg hin, hv]
  · intro elt hv hge hlast
    have hget : ∀ h : sig.params.length - 1 < sig.params.length,
        sig.params.get ⟨sig.params.length - 1, h⟩ = .slice elt := by
      intro h
      have h1 := List.getLast?_eq_getElem? sig.params
      rw [hlast, List.getElem?_eq_getElem h] at h1
      exact (Option.some.injEq _ _ ▸ h1.symm :)
    by_cases hin : i < sig.params.length
    · have hi : i = sig.params.length - 1 := by omega
      subst hi
      simp only [argument, dif_pos hin]
      rw [hget hin]
      simp [argumentBody, hv]
    · simp [argument, dif_neg hin, hv, hlast, argumentBody, hge]
  · intro elt hv hlast
    have hne : sig.params ≠ [] := by
      intro h0; rw [h0] at hlast; simp at hlast
    have hn : 0 < sig.params.length := List.length_pos.mpr hne
    have hget : ∀ h : sig.params.length - 1 < sig.params.length,
        sig.params.get ⟨sig.params.length - 1, h⟩ = .slice elt := by
      intro h
      have h1 := List.getLast?_eq_getElem? sig.params
      rw [hlast, List.getElem?_eq_getElem h] at h1
      exact (Option.some.injEq _ _ ▸ h1.symm :)
    refine ⟨?_, ?_, ?_⟩
    · intro hne1
      by_cases hin : i < sig.params.length
      · simp [argument, dif_pos hin, argumentBody, hne1]
      · simp [argument, dif_neg hin, hv, hlast, argumentBody, hne1]
    · intro hi hns
      have hin : i < sig.params.length := by omega
      subst hi
      simp only [argument, dif_pos hin]
      rw [hget hin]
      simp [argumentBody]
    · intro e hi hxe
      have hin : i < sig.params.length := by omega
      subst hi
      simp only [argument, dif_pos hin]
      rw [hget hin]
      simp [argumentBody, hxe]

/-- Witness for claim C7 over `func(int, ...string)` and a one-parameter
non-variadic signature: excess position, trailing element check, good
spread, misplaced spread, and non-slice spread. -/
theorem argument_matcher_wit :
    argument alwaysAssign ⟨[.basic "int"], [], false⟩ 1 ⟨.value, .basic "x"⟩ false =
        some [Err.tooManyArguments] ∧
    argument alwaysAssign sigVarFix 2 ⟨.value, .basic "y"⟩ false =
        some (assignStep alwaysAssign ⟨.value, .basic "y"⟩ (.basic "string")) ∧
    argument alwaysAssign sigVarFix 1 ⟨.value, .slice (.basic "string")⟩ true =
        some (assignStep alwaysAssign ⟨.value, .slice (.basic "string")⟩
          (.slice (.basic "string"))) ∧
    argument alwaysAssign sigVarFix 0 ⟨.value, .slice (.basic "string")⟩ true =
        some [Err.spreadPositionMismatch] ∧
    argument alwaysAssign sigVarFix 1 ⟨.value, .basic "z"⟩ true =
        some [Err.spreadTypeMismatch] :=
  ⟨(argument_matcher alwaysAssign ⟨[.basic "int"], [], false⟩ 1 ⟨.value, .basic "x"⟩).1
      rfl (by decide) false,
   (argument_matcher alwaysAssign sigVarFix 2 ⟨.value, .basic "y"⟩).2.1
      (.basic "string") rfl (by decide) rfl,
   ((argument_matcher alwaysAssign sigVarFix 1 ⟨.value, .slice (.basic "string")⟩).2.2
      (.basic "string") rfl rfl).2.2 (.basic "string") (by decide) rfl,
   ((argument_matcher alwaysAssign sigVarFix 0 ⟨.value, .slice (.basic "string")⟩).2.2
      (.basic "string") rfl rfl).1 (by decide),
   ((argument_matcher alwaysAssign sigVarFix 1 ⟨.value, .basic "z"⟩).2.2
      (.basic "string") rfl rfl).2.1 (by decide) (by intro e h; cases h)⟩

/-- Claim C8: a call of a non-variadic signature written with a trailing
spread reports `SpreadOnNonVariadic` and then proceeds exactly as the
same call without the spread (call.go:37-45 only sets `passSlice` for
variadic signatures): every argument is checked the same way and the
same result operand is produced, with the spread diagnostic prepended. -/
theorem call_spread_nv (assign : Operand → Ty → Bool) (fx : Operand)
    (args : List Operand) (sig : Signature)
    (hm : fx.mode ≠ .invalid) (ht : fx.mode ≠ .typexpr)
    (hs : underlyingSig fx.typ = some sig)
    (hv : sig.isVariadic = false) :
    call assign fx args true =
      (call assign fx args false).map (fun r =>
        match r with
        | .completed x errs => .completed x (Err.spreadOnNonVariadic :: errs)
        | r => r) := by
  simp only [call, if_neg hm, if_neg ht, hs, hv, Bool.and_false, Bool.and_self,
    Bool.not_false, Bool.and_true]
  rcases he : evalArgs assign sig false args with _ | ⟨n, aerrs⟩ <;> simp

/-- Witness for claim C8: a spread call of a niladic non-variadic
signature is its spreadless call plus the `SpreadOnNonVariadic`
diagnostic. -/
theorem call_spread_nv_wit :
    call alwaysAssign ⟨.value, .sigT [] [] false⟩ [] true =
      (call alwaysAssign ⟨.value, .sigT [] [] false⟩ [] false).map (fun r =>
        match r with
        | .completed x errs => .completed x (Err.spreadOnNonVariadic :: errs)
        | r => r) :=
  call_spread_nv alwaysAssign ⟨.value, .sigT [] [] false⟩ [] ⟨[], [], false⟩
    (by decide) (by decide) rfl rfl

/-- Claim C9: a call whose callee has a signature type yields mode
`novalue` for zero results, mode `value` with the single result's type
for one result, and mode `value` with the results tuple for several
(call.go:91-101) — whatever diagnostics `errs` the call emitted. -/
theorem call_result_shape (assign : Operand → Ty → Bool) (fx : Operand)
    (args : List Operand) (ell : Bool) (sig : Signature) (x : Operand) (errs : List Err)
    (hm : fx.mode ≠ .invalid) (ht : fx.mode ≠ .typexpr)
    (hs : underlyingSig fx.typ = some sig)
    (h : call assign fx args ell = some (.completed x errs)) :
    x = callResultOperand sig ∧
    (sig.results = [] → x.mode = .novalue) ∧
    (∀ r, sig.results = [r] → x = ⟨.value, r⟩) ∧
    (∀ r1 r2 rs, sig.results = r1 :: r2 :: rs → x = ⟨.value, .tuple sig.results⟩) := by
  simp only [call, if_neg hm, if_neg ht, hs] at h
  rcases he : evalArgs assign sig (ell && sig.isVariadic) args with _ | ⟨n, aerrs⟩ <;>
    rw [he] at h
  · simp at h
  · simp only [Option.some.injEq, CallResult.completed.injEq] at h
    obtain ⟨hx, -⟩ := h
    refine ⟨hx.symm, ?_, ?_, ?_⟩
    · intro hr; rw [← hx]; simp [callResultOperand, hr]
    · intro r hr; rw [← hx]; simp [callResultOperand, hr]
    · intro r1 r2 rs hr; rw [← hx]; simp [callResultOperand, hr]

/-- Witness for claim C9: a successful two-argument call of `sigTwoFix`
produces the value-mode operand of its single result type. -/
theorem call_result_shape_wit :
    (⟨.value, .basic "bool"⟩ : Operand) = callResultOperand sigTwoFix ∧
    (sigTwoFix.results = [] → (⟨.value, .basic "bool"⟩ : Operand).mode = .novalue) ∧
    (∀ r, sigTwoFix.results = [r] → (⟨.value, .basic "bool"⟩ : Operand) = ⟨.value, r⟩) ∧
    (∀ r1 r2 rs, sigTwoFix.results = r1 :: r2 :: rs →
      (⟨.value, .basic "bool"⟩ : Operand) = ⟨.value, .tuple sigTwoFix.results⟩) :=
  call_result_shape alwaysAssign fxTwoFix
    [⟨.value, .basic "int"⟩, ⟨.value, .basic "string"⟩] false sigTwoFix
    ⟨.value, .basic "bool"⟩ [] (by decide) (by decide) rfl rfl

end GoTypes
